import Mathlib

/-!
Verification of the `solar_analyses` repository: a shallow embedding of the
time encoder, posterior extractor, Stan model definition, summary statistics
and prediction comparator, together with theorems settling the specification
claims.  Python strings are embedded as `List Char`; pandas/NumPy numeric
values as `ℚ` where the code is exact rational arithmetic over the inputs and
as `ℝ` where the code manipulates transcendental functions (Stan model,
densities); fallible pandas operations (raising `ValueError`) are embedded as
`Except`-valued functions; missing data (`NaN`) as `Option`.
-/

namespace SolarAnalyses

/-! Python string primitives, embedded on `List Char`.

`pyStartsWith s pre` embeds `s.startswith(pre)`;
`pyReplace pat s` embeds `s.replace(pat, "")` (left-to-right scan replacing
every non-overlapping occurrence, here with the empty replacement as used by
the source);
`pyInt? s` embeds `int(s)` (optional sign, at least one decimal digit;
returns `none` where Python raises `ValueError`). -/

/-- Embedding of Python `s.startswith(pre)`. -/
def pyStartsWith (s pre : List Char) : Bool := pre.isPrefixOf s

/-- Fuelled worker for `pyReplace`; the fuel is an upper bound on the number
of scan steps, each step either consumes a match of `pat` (length ≥ 1) or one
character, so `s.length` fuel always suffices. -/
def pyReplaceGo (pat : List Char) : Nat → List Char → List Char
  | _, [] => []
  | 0, s => s
  | fuel + 1, c :: rest =>
    if pat ≠ [] ∧ pat.isPrefixOf (c :: rest) then
      pyReplaceGo pat fuel ((c :: rest).drop pat.length)
    else
      c :: pyReplaceGo pat fuel rest

/-- Embedding of Python `s.replace(pat, "")`: delete every non-overlapping
occurrence of `pat` in `s`, scanning left to right. -/
def pyReplace (pat s : List Char) : List Char := pyReplaceGo pat s.length s

/-- Parse a nonempty all-digit string as a natural number (most significant
digit first); `none` on the empty string or any non-digit character. -/
def parseNatDigits (s : List Char) : Option Nat :=
  if s = [] then none
  else
    s.foldl
      (fun acc c =>
        acc.bind (fun a => if c.isDigit then some (10 * a + (c.toNat - 48)) else none))
      (some 0)

/-- Embedding of Python `int(s)`: optional single leading sign followed by at
least one decimal digit; `none` where Python raises `ValueError`. -/
def pyInt? (s : List Char) : Option Int :=
  match s with
  | '-' :: rest => (parseNatDigits rest).map (fun n => -(n : Int))
  | '+' :: rest => (parseNatDigits rest).map (fun n => (n : Int))
  | _ => (parseNatDigits s).map (fun n => (n : Int))

/-! Calendar dates.  The source works with `pandas` timestamps at day
resolution; we embed them as Gregorian (year, month, day) triples with the
proleptic Gregorian leap rule used by pandas. -/

/-- A calendar date at day resolution. -/
structure Date where
  year : Int
  month : Nat
  day : Nat
deriving DecidableEq

/-- Gregorian leap-year rule (as used by `pandas.DatetimeIndex.is_leap_year`). -/
def isLeapYear (y : Int) : Bool :=
  (y % 4 == 0 && y % 100 != 0) || y % 400 == 0

/-- Number of days in a month of a given year (months are 1-based). -/
def daysInMonth (y : Int) (m : Nat) : Nat :=
  match m with
  | 1 => 31
  | 2 => if isLeapYear y then 29 else 28
  | 3 => 31
  | 4 => 30
  | 5 => 31
  | 6 => 30
  | 7 => 31
  | 8 => 31
  | 9 => 30
  | 10 => 31
  | 11 => 30
  | 12 => 31
  | _ => 0

/-- Day of year, 1-based (embeds `pandas.DatetimeIndex.day_of_year`). -/
def dayOfYear (d : Date) : Nat :=
  ((List.range' 1 (d.month - 1)).map (daysInMonth d.year)).sum + d.day

/-- A structurally valid Gregorian calendar date. -/
def ValidDate (d : Date) : Prop :=
  1 ≤ d.month ∧ d.month ≤ 12 ∧ 1 ≤ d.day ∧ d.day ≤ daysInMonth d.year d.month

instance (d : Date) : Decidable (ValidDate d) := by
  unfold ValidDate; infer_instance

/-- Length of a date's calendar year in days, `365 + is_leap_year`. -/
def yearLength (d : Date) : Nat := 365 + (if isLeapYear d.year then 1 else 0)

namespace utilities

/-- Embedding of `utilities.date_to_offset_in_year` applied to one date:
`(dates.day_of_year - 1) / (365 + dates.is_leap_year)`.  The pandas version
is vectorized; `date_to_offset_in_year_series` below maps it over a list. -/
def date_to_offset_in_year (d : Date) : ℚ :=
  ((dayOfYear d : ℚ) - 1) / ((365 : ℚ) + (if isLeapYear d.year then 1 else 0))

/-- The vectorized form of `date_to_offset_in_year` (pandas broadcasts the
scalar computation over the index, preserving order). -/
def date_to_offset_in_year_series (dates : List Date) : List ℚ :=
  dates.map date_to_offset_in_year

end utilities

/-! Facts about `dayOfYear` needed for the time-encoder claim. -/

theorem dayOfYear_le (d : Date) (hv : ValidDate d) : dayOfYear d ≤ yearLength d := by
  obtain ⟨h1, h2, h3, h4⟩ := hv
  unfold dayOfYear yearLength
  interval_cases h : d.month <;>
    simp_all [daysInMonth, List.range'] <;>
    split_ifs <;> simp_all <;> omega

theorem one_le_dayOfYear (d : Date) (hv : ValidDate d) : 1 ≤ dayOfYear d := by
  obtain ⟨h1, h2, h3, h4⟩ := hv
  unfold dayOfYear
  omega

/-! The posterior extractor (`utilities.extract_posterior_timeseries`).

The raw posterior is a pandas DataFrame with one row per draw and one named
column per scalar parameter or per-day derived quantity; we embed it
column-wise: each column is its name together with its per-draw values. -/

/-- The raw posterior draw matrix returned by the inference engine
(`stan_fit` in the source): a list of named columns, each carrying one value
per draw. -/
structure StanFit where
  cols : List (List Char × List ℚ)

/-- The distinct `ValueError`s the pandas pipeline inside
`extract_posterior_timeseries` can raise: a non-integer column label after
prefix stripping (`.astype(int)`), duplicate integer labels (`.reindex`),
and a column-count / date-count mismatch (`ts.columns = df.index`). -/
inductive ExtractError where
  | intConversion (label : List Char)
  | duplicateLabels
  | lengthMismatch (expected actual : Nat)
deriving DecidableEq

namespace utilities

/-- The columns of the posterior selected by
`stan_fit.columns.str.startswith(parameter)`. -/
def matchingColumns (param : List Char) (fit : StanFit) : List (List Char × List ℚ) :=
  fit.cols.filter (fun c => pyStartsWith c.1 param)

/-- The integer label a selected column receives: its name with the first
occurrences of `parameter ++ "."` deleted (`rename` with
`x.replace(f"...", "")`), then converted by `int` (`astype(int)`). -/
def suffixKey (param : List Char) (c : List Char × List ℚ) : Option Int :=
  pyInt? (pyReplace (param ++ ['.']) c.1)

/-- Convert one selected column to its (integer label, draws) pair, as
`astype(int)` does, raising on a non-integer label. -/
def parseColumn (param : List Char) (c : List Char × List ℚ) :
    Except ExtractError (Int × List ℚ) :=
  match suffixKey param c with
  | some n => .ok (n, c.2)
  | none => .error (.intConversion (pyReplace (param ++ ['.']) c.1))

/-- Convert every selected column, left to right; the first failing
conversion raises, as `astype(int)` does. -/
def parseColumns (param : List Char) :
    List (List Char × List ℚ) → Except ExtractError (List (Int × List ℚ))
  | [] => .ok []
  | c :: rest =>
    match parseColumn param c with
    | .error e => .error e
    | .ok v =>
      match parseColumns param rest with
      | .error e => .error e
      | .ok vs => .ok (v :: vs)

/-- Numeric order on labelled columns: compare the integer labels. -/
def keyLe (a b : Int × List ℚ) : Prop := a.1 ≤ b.1

instance : DecidableRel keyLe := fun a b => inferInstanceAs (Decidable (a.1 ≤ b.1))

instance : IsTotal (Int × List ℚ) keyLe := ⟨fun a b => le_total a.1 b.1⟩

instance : IsTrans (Int × List ℚ) keyLe := ⟨fun _ _ _ h1 h2 => le_trans h1 h2⟩

/-- Second half of the extraction pipeline, on the integer-labelled columns:
sort the columns by integer label (`reindex(sorted(ts.columns))`, raising on
duplicated labels), relabel with the target dates (`ts.columns = df.index`,
raising on a length mismatch, pandas never truncates or pads here) and
transpose, giving rows = dates and columns = draws. -/
def relabelAndTranspose (dates : List Date) (labeled : List (Int × List ℚ)) :
    Except ExtractError (List (Date × List ℚ)) :=
  if (labeled.map Prod.fst).Nodup then
    if (List.insertionSort keyLe labeled).length = dates.length then
      .ok (dates.zip ((List.insertionSort keyLe labeled).map Prod.snd))
    else
      .error (.lengthMismatch dates.length (List.insertionSort keyLe labeled).length)
  else
    .error .duplicateLabels

/-- Embedding of `utilities.extract_posterior_timeseries(parameter, df, stan_fit)`:
select the columns whose names start with `parameter`, strip the
`parameter.` prefix from their names, convert the remainders to integers
(`astype(int)`, raising on a non-integer remainder), then sort the columns
numerically, relabel them with the target dates and transpose. -/
def extract_posterior_timeseries (param : List Char) (dates : List Date)
    (fit : StanFit) : Except ExtractError (List (Date × List ℚ)) :=
  match parseColumns param (matchingColumns param fit) with
  | .error e => .error e
  | .ok labeled => relabelAndTranspose dates labeled

end utilities

/-! Lemmas about the Python string primitives, used to characterise the
extractor on well-formed posterior column names. -/

theorem pyReplaceGo_of_not_mem (pat : List Char) (ch : Char)
    (hch : ch ∈ pat) : ∀ (fuel : Nat) (s : List Char), ch ∉ s →
    pyReplaceGo pat fuel s = s := by
  intro fuel
  induction fuel with
  | zero => intro s _; cases s <;> rfl
  | succ n ih =>
    intro s hs
    cases s with
    | nil => rfl
    | cons c rest =>
      rw [pyReplaceGo]
      have hpre : ¬ (pat ≠ [] ∧ pat.isPrefixOf (c :: rest)) := by
        rintro ⟨-, hp⟩
        exact hs ((List.isPrefixOf_iff_prefix.mp hp).mem hch)
      rw [if_neg hpre, ih rest (fun h => hs (List.mem_cons_of_mem c h))]

theorem pyReplaceGo_append (pat : List Char) (hpat : pat ≠ []) (fuel : Nat)
    (s : List Char) :
    pyReplaceGo pat (fuel + 1) (pat ++ s) = pyReplaceGo pat fuel s := by
  match pat, hpat with
  | p :: ps, _ =>
    rw [List.cons_append, pyReplaceGo]
    have hpre : (p :: ps) ≠ [] ∧ (p :: ps).isPrefixOf (p :: (ps ++ s)) := by
      refine ⟨by simp, List.isPrefixOf_iff_prefix.mpr ?_⟩
      exact ⟨s, by simp⟩
    rw [if_pos hpre]
    have hdrop : ((p :: ps) ++ s).drop (p :: ps).length = s := List.drop_left _ _
    rw [List.cons_append] at hdrop
    rw [hdrop]

theorem pyReplace_prefix_digits (param suffix : List Char)
    (hd : suffix.all Char.isDigit = true) :
    pyReplace (param ++ ['.']) (param ++ '.' :: suffix) = suffix := by
  have hdot : ('.' : Char) ∉ suffix := by
    intro hmem
    have := List.all_eq_true.mp hd _ hmem
    simp [Char.isDigit] at this
  have hs : param ++ '.' :: suffix = (param ++ ['.']) ++ suffix := by simp
  have hlen : (param ++ '.' :: suffix).length
      = (param.length + suffix.length) + 1 := by
    simp [List.length_append]
    omega
  rw [pyReplace, hs]
  rw [hs] at hlen
  rw [hlen]
  rw [pyReplaceGo_append _ (by simp)]
  exact pyReplaceGo_of_not_mem _ '.' (by simp) _ _ hdot

theorem parseNatDigits_isSome (s : List Char) (hne : s ≠ [])
    (hd : s.all Char.isDigit = true) : (parseNatDigits s).isSome = true := by
  have key : ∀ (t : List Char), t.all Char.isDigit = true → ∀ (a : Nat),
      (t.foldl
        (fun acc c =>
          acc.bind (fun x =>
            if c.isDigit then some (10 * x + (c.toNat - 48)) else none))
        (some a)).isSome = true := by
    intro t
    induction t with
    | nil => intro _ a; simp
    | cons c rest ih =>
      intro hall a
      rw [List.all_cons, Bool.and_eq_true] at hall
      rw [List.foldl_cons]
      simp only [Option.some_bind, hall.1, if_true]
      exact ih hall.2 _
  rw [parseNatDigits, if_neg hne]
  exact key s hd 0

theorem pyInt?_isSome (s : List Char) (hne : s ≠ [])
    (hd : s.all Char.isDigit = true) : (pyInt? s).isSome = true := by
  have hp := parseNatDigits_isSome s hne hd
  unfold pyInt?
  split
  · next rest =>
    rw [List.all_cons] at hd
    simp [Char.isDigit] at hd
  · next rest =>
    rw [List.all_cons] at hd
    simp [Char.isDigit] at hd
  · next =>
    obtain ⟨n, hn⟩ := Option.isSome_iff_exists.mp hp
    rw [hn]
    rfl

namespace utilities

/-- Well-formedness of a posterior matrix for a given prefix: every column
whose name starts with the prefix is the prefix, a dot, then a nonempty
digit string (`parameter.1`, `parameter.2`, ...). -/
def NumericSuffixed (param : List Char) (fit : StanFit) : Prop :=
  ∀ c ∈ fit.cols, pyStartsWith c.1 param = true →
    ∃ s : List Char, c.1 = param ++ '.' :: s ∧ s ≠ [] ∧ s.all Char.isDigit = true

theorem suffixKey_isSome (param : List Char) (fit : StanFit)
    (hform : NumericSuffixed param fit) :
    ∀ c ∈ matchingColumns param fit, (suffixKey param c).isSome = true := by
  intro c hc
  rw [matchingColumns, List.mem_filter] at hc
  obtain ⟨s, hname, hne, hdig⟩ := hform c hc.1 hc.2
  rw [suffixKey, hname, pyReplace_prefix_digits _ _ hdig]
  exact pyInt?_isSome s hne hdig

theorem parseColumn_ok (param : List Char) (c : List Char × List ℚ)
    (h : (suffixKey param c).isSome = true) :
    parseColumn param c = .ok ((suffixKey param c).getD 0, c.2) := by
  obtain ⟨k, hk⟩ := Option.isSome_iff_exists.mp h
  unfold parseColumn
  rw [hk]
  rfl

theorem parseColumns_ok (param : List Char) (l : List (List Char × List ℚ))
    (h : ∀ c ∈ l, (suffixKey param c).isSome = true) :
    parseColumns param l =
      .ok (l.map (fun c => ((suffixKey param c).getD 0, c.2))) := by
  induction l with
  | nil => rfl
  | cons c rest ih =>
    rw [parseColumns]
    rw [parseColumn_ok param c (h c (List.mem_cons_self c rest))]
    rw [ih (fun x hx => h x (List.mem_cons_of_mem c hx))]
    rfl

theorem parseColumns_error (param : List Char) (l : List (List Char × List ℚ))
    (c0 : List Char × List ℚ) (h0 : c0 ∈ l)
    (hbad : suffixKey param c0 = none) :
    ∃ bad, parseColumns param l = .error (.intConversion bad) := by
  induction l with
  | nil => cases h0
  | cons c rest ih =>
    rw [parseColumns]
    rcases List.mem_cons.mp h0 with rfl | hmem
    · unfold parseColumn
      rw [hbad]
      exact ⟨_, rfl⟩
    · rcases hsk : suffixKey param c with _ | k
      · unfold parseColumn
        rw [hsk]
        exact ⟨_, rfl⟩
      · have hpc : parseColumn param c = .ok (k, c.2) := by
          unfold parseColumn; rw [hsk]
        rw [hpc]
        obtain ⟨bad, hb⟩ := ih hmem
        rw [hb]
        exact ⟨bad, rfl⟩

theorem extract_eq_of_parse_ok (param : List Char) (dates : List Date)
    (fit : StanFit) (L : List (Int × List ℚ))
    (h : parseColumns param (matchingColumns param fit) = .ok L) :
    extract_posterior_timeseries param dates fit = relabelAndTranspose dates L := by
  unfold extract_posterior_timeseries
  rw [h]

/-- C1.  On a posterior matrix whose prefix-matching columns all carry the
form `parameter.<digits>` with pairwise distinct parsed labels, extraction
selects exactly those columns, parses the suffixes as integers, sorts them
numerically, pairs the i-th target date with the column of the i-th smallest
suffix and transposes (rows = dates, each row carrying that date's draws);
when the matching-column count differs from the target-date count it fails
with a shape-mismatch error carrying both counts, never truncating or
padding. -/
theorem extract_posterior_timeseries_correct (param : List Char)
    (dates : List Date) (fit : StanFit)
    (hform : NumericSuffixed param fit)
    (hnodup : ((matchingColumns param fit).map (suffixKey param)).Nodup) :
    ((matchingColumns param fit).length = dates.length →
      ∃ (ts : List (Date × List ℚ)) (sortedCols : List (Int × List ℚ)),
        extract_posterior_timeseries param dates fit = .ok ts ∧
        ts.map Prod.fst = dates ∧
        sortedCols.Perm ((matchingColumns param fit).map
          (fun c => ((suffixKey param c).getD 0, c.2))) ∧
        (sortedCols.map Prod.fst).Sorted (· ≤ ·) ∧
        ts.map Prod.snd = sortedCols.map Prod.snd) ∧
    ((matchingColumns param fit).length ≠ dates.length →
      extract_posterior_timeseries param dates fit =
        .error (.lengthMismatch dates.length
          (matchingColumns param fit).length)) := by
  have hsome := suffixKey_isSome param fit hform
  set M := matchingColumns param fit with hM
  set keyf : (List Char × List ℚ) → (Int × List ℚ) :=
    fun c => ((suffixKey param c).getD 0, c.2) with hkeyf
  have hparse : parseColumns param M = .ok (M.map keyf) :=
    parseColumns_ok param M hsome
  have hext := extract_eq_of_parse_ok param dates fit (M.map keyf) hparse
  have hnodup2 : ((M.map keyf).map Prod.fst).Nodup := by
    have hcong : M.map (suffixKey param)
        = ((M.map keyf).map Prod.fst).map some := by
      rw [List.map_map, List.map_map]
      apply List.map_congr_left
      intro c hc
      obtain ⟨k, hk⟩ := Option.isSome_iff_exists.mp (hsome c hc)
      simp [hkeyf, hk, Function.comp]
    rw [hcong] at hnodup
    exact List.Nodup.of_map some hnodup
  have hsortlen : (List.insertionSort keyLe (M.map keyf)).length = M.length := by
    rw [List.length_insertionSort, List.length_map]
  constructor
  · intro hlen
    refine ⟨dates.zip ((List.insertionSort keyLe (M.map keyf)).map Prod.snd),
        List.insertionSort keyLe (M.map keyf), ?_, ?_, ?_, ?_, ?_⟩
    · rw [hext, relabelAndTranspose, if_pos hnodup2,
        if_pos (by rw [hsortlen]; exact hlen)]
    · apply List.map_fst_zip
      rw [List.length_map, hsortlen, hlen]
    · exact List.perm_insertionSort keyLe (M.map keyf)
    · exact List.pairwise_map.mpr (List.sorted_insertionSort keyLe (M.map keyf))
    · apply List.map_snd_zip
      rw [List.length_map, hsortlen, hlen]
  · intro hlen
    rw [hext, relabelAndTranspose, if_pos hnodup2,
      if_neg (by rw [hsortlen]; exact fun h => hlen h), hsortlen]

/-- Concrete three-column posterior with intentionally out-of-order numeric
suffixes, used to witness the extraction-ordering theorem. -/
def exampleFit : StanFit :=
  ⟨[(['x', '.', '3'], [(30 : ℚ)]), (['x', '.', '1'], [10]), (['x', '.', '2'], [20])]⟩

/-- Concrete target dates for the extraction witness. -/
def exampleDates : List Date := [⟨2023, 1, 1⟩, ⟨2023, 1, 2⟩, ⟨2023, 1, 3⟩]

theorem exampleFit_numericSuffixed : NumericSuffixed ['x'] exampleFit := by
  intro c hc _
  simp only [exampleFit, List.mem_cons, List.not_mem_nil, or_false] at hc
  rcases hc with rfl | rfl | rfl
  · exact ⟨['3'], rfl, by decide, by decide⟩
  · exact ⟨['1'], rfl, by decide, by decide⟩
  · exact ⟨['2'], rfl, by decide, by decide⟩

/-- Witness for C1: the hypotheses hold for the concrete `x.3, x.1, x.2`
posterior and three dates, and the theorem applies there. -/
theorem extract_posterior_timeseries_correct_witness :
    NumericSuffixed ['x'] exampleFit ∧
    ((matchingColumns ['x'] exampleFit).map (suffixKey ['x'])).Nodup ∧
    (((matchingColumns ['x'] exampleFit).length = exampleDates.length →
      ∃ (ts : List (Date × List ℚ)) (sortedCols : List (Int × List ℚ)),
        extract_posterior_timeseries ['x'] exampleDates exampleFit = .ok ts ∧
        ts.map Prod.fst = exampleDates ∧
        sortedCols.Perm ((matchingColumns ['x'] exampleFit).map
          (fun c => ((suffixKey ['x'] c).getD 0, c.2))) ∧
        (sortedCols.map Prod.fst).Sorted (· ≤ ·) ∧
        ts.map Prod.snd = sortedCols.map Prod.snd) ∧
    ((matchingColumns ['x'] exampleFit).length ≠ exampleDates.length →
      extract_posterior_timeseries ['x'] exampleDates exampleFit =
        .error (.lengthMismatch exampleDates.length
          (matchingColumns ['x'] exampleFit).length))) :=
  ⟨exampleFit_numericSuffixed, by decide,
    extract_posterior_timeseries_correct ['x'] exampleDates exampleFit
      exampleFit_numericSuffixed (by decide)⟩

/-- C10.  If any column of the posterior starts with the requested prefix
but its name after stripping `prefix.` is not an integer literal (a scalar
column named exactly the prefix, or a longer family such as `E_optimal_min`
or `E_optimal_ref.1` under prefix `E_optimal`), extraction raises an
integer-conversion error — it never returns a series built from the extra
columns, regardless of how many correctly suffixed columns there are. -/
theorem extract_posterior_timeseries_badColumn (param : List Char)
    (dates : List Date) (fit : StanFit) (c0 : List Char × List ℚ)
    (h0 : c0 ∈ fit.cols) (hs : pyStartsWith c0.1 param = true)
    (hbad : suffixKey param c0 = none) :
    ∃ bad, extract_posterior_timeseries param dates fit =
      .error (.intConversion bad) := by
  have hm : c0 ∈ matchingColumns param fit := by
    rw [matchingColumns, List.mem_filter]
    exact ⟨h0, hs⟩
  obtain ⟨bad, hb⟩ := parseColumns_error param _ c0 hm hbad
  refine ⟨bad, ?_⟩
  unfold extract_posterior_timeseries
  rw [hb]

/-- Posterior with one well-suffixed `E_optimal` column and one stray
`E_optimal_min` column, matching in count the single target date. -/
def exampleBadFit : StanFit :=
  ⟨[("E_optimal.1".toList, [(5 : ℚ)]), ("E_optimal_min".toList, [7])]⟩

/-- Witness for C10: the stray `E_optimal_min` column satisfies the
hypotheses, and extraction under prefix `E_optimal` fails with an
integer-conversion error. -/
theorem extract_posterior_timeseries_badColumn_witness :
    (("E_optimal_min".toList, [(7 : ℚ)]) ∈ exampleBadFit.cols) ∧
    pyStartsWith ("E_optimal_min".toList, [(7 : ℚ)]).1 "E_optimal".toList = true ∧
    suffixKey "E_optimal".toList ("E_optimal_min".toList, [(7 : ℚ)]) = none ∧
    ∃ bad, extract_posterior_timeseries "E_optimal".toList [⟨2023, 1, 1⟩]
      exampleBadFit = .error (.intConversion bad) :=
  ⟨by decide, by decide, by decide,
    extract_posterior_timeseries_badColumn "E_optimal".toList [⟨2023, 1, 1⟩]
      exampleBadFit ("E_optimal_min".toList, [(7 : ℚ)])
      (by decide) (by decide) (by decide)⟩

theorem offset_denom (d : Date) :
    (365 : ℚ) + (if isLeapYear d.year then 1 else 0) = (yearLength d : ℚ) := by
  unfold yearLength
  split_ifs <;> norm_num

theorem yearLength_pos_rat (d : Date) : (0 : ℚ) < (yearLength d : ℚ) := by
  have : 365 ≤ yearLength d := by unfold yearLength; omega
  exact_mod_cast lt_of_lt_of_le (by norm_num) this

/-- C3.  For every valid calendar date the offset is
`(day_of_year - 1) / year_length` with the leap-aware year length, lies in
`[0, 1)`; December 31 of a leap year maps to exactly `365/366`; within one
calendar year the map is monotone in the day of year; and the vectorized
form maps each position of the date sequence to the offset of the date at
that position (order-preserving). -/
theorem date_to_offset_in_year_correct :
    (∀ d : Date, ValidDate d →
      0 ≤ utilities.date_to_offset_in_year d ∧
        utilities.date_to_offset_in_year d < 1) ∧
    (∀ y : Int, isLeapYear y = true →
      utilities.date_to_offset_in_year ⟨y, 12, 31⟩ = 365 / 366) ∧
    (∀ d1 d2 : Date, d1.year = d2.year → dayOfYear d1 ≤ dayOfYear d2 →
      utilities.date_to_offset_in_year d1 ≤ utilities.date_to_offset_in_year d2) ∧
    (∀ (dates : List Date) (i : Nat) (hi : i < dates.length),
      (utilities.date_to_offset_in_year_series dates).get
          ⟨i, by simpa [utilities.date_to_offset_in_year_series] using hi⟩
        = utilities.date_to_offset_in_year (dates.get ⟨i, hi⟩)) := by
  refine ⟨?_, ?_, ?_, ?_⟩
  · intro d hv
    rw [utilities.date_to_offset_in_year, offset_denom]
    have h1 : 1 ≤ dayOfYear d := one_le_dayOfYear d hv
    have h2 : dayOfYear d ≤ yearLength d := dayOfYear_le d hv
    have h1q : (1 : ℚ) ≤ (dayOfYear d : ℚ) := by exact_mod_cast h1
    have h2q : (dayOfYear d : ℚ) ≤ (yearLength d : ℚ) := by exact_mod_cast h2
    have hL := yearLength_pos_rat d
    constructor
    · exact div_nonneg (by linarith) (le_of_lt hL)
    · rw [div_lt_one hL]
      linarith
  · intro y hy
    rw [utilities.date_to_offset_in_year]
    have hdoy : dayOfYear ⟨y, 12, 31⟩ = 366 := by
      simp [dayOfYear, List.range', daysInMonth, hy]
    rw [hdoy]
    simp only [hy, if_true]
    norm_num
  · intro d1 d2 hyr hdoy
    rw [utilities.date_to_offset_in_year, utilities.date_to_offset_in_year, hyr]
    have hL : (0 : ℚ) < 365 + (if isLeapYear d2.year then 1 else 0) := by
      rw [offset_denom ⟨d2.year, d1.month, d1.day⟩]
      exact yearLength_pos_rat _
    have hq : (dayOfYear d1 : ℚ) ≤ (dayOfYear d2 : ℚ) := by exact_mod_cast hdoy
    exact div_le_div_of_nonneg_right (by linarith) hL.le
  · intro dates i hi
    simp [utilities.date_to_offset_in_year_series]

/-- Witness for C3: the theorem applied to December 31 2024 (a leap year),
to an in-year monotone pair, and to a two-date sequence. -/
theorem date_to_offset_in_year_correct_witness :
    (ValidDate ⟨2024, 12, 31⟩ ∧
      0 ≤ utilities.date_to_offset_in_year ⟨2024, 12, 31⟩ ∧
      utilities.date_to_offset_in_year ⟨2024, 12, 31⟩ < 1) ∧
    (isLeapYear 2024 = true ∧
      utilities.date_to_offset_in_year ⟨2024, 12, 31⟩ = 365 / 366) ∧
    utilities.date_to_offset_in_year ⟨2024, 3, 1⟩ ≤
      utilities.date_to_offset_in_year ⟨2024, 10, 2⟩ ∧
    (utilities.date_to_offset_in_year_series [⟨2024, 1, 1⟩, ⟨2024, 1, 2⟩]).get
        ⟨1, by simp [utilities.date_to_offset_in_year_series]⟩
      = utilities.date_to_offset_in_year ⟨2024, 1, 2⟩ :=
  ⟨⟨by decide, date_to_offset_in_year_correct.1 ⟨2024, 12, 31⟩ (by decide)⟩,
    ⟨by decide, date_to_offset_in_year_correct.2.1 2024 (by decide)⟩,
    date_to_offset_in_year_correct.2.2.1 ⟨2024, 3, 1⟩ ⟨2024, 10, 2⟩ rfl (by decide),
    date_to_offset_in_year_correct.2.2.2 [⟨2024, 1, 1⟩, ⟨2024, 1, 2⟩] 1 (by decide)⟩

end utilities

/-! The generative model definition (`modelling._stan_code`).  The Stan
program is a declarative contract; its transformed parameters, likelihood
increments and generated quantity are pure real-valued expressions, embedded
here over `ℝ`. -/

namespace modelling

/-- The scalar parameters block of `_stan_code`. -/
structure Params where
  min : ℝ
  amplitude : ℝ
  phase : ℝ
  beta_c1 : ℝ
  beta_s1 : ℝ
  saturation : ℝ

/-- Transformed parameter `instantaneous_phase = 2 * pi() * t_year + phase`
at one day's `t_year` value. -/
noncomputable def instantaneous_phase (p : Params) (t : ℝ) : ℝ :=
  2 * Real.pi * t + p.phase

/-- Transformed parameter `seasonal_oscillation`: the harmonically distorted
cosine passed through the `tanh` saturation. -/
noncomputable def seasonal_oscillation (p : Params) (t : ℝ) : ℝ :=
  Real.tanh (p.saturation * 0.5 * (1 + Real.cos (
    instantaneous_phase p t
    + p.beta_c1 * Real.cos (instantaneous_phase p t)
    + p.beta_s1 * Real.sin (instantaneous_phase p t))))

/-- Transformed parameter `optimal_production = min + amplitude * seasonal_oscillation`. -/
noncomputable def optimal_production (p : Params) (t : ℝ) : ℝ :=
  p.min + p.amplitude * seasonal_oscillation p t

/-- Transformed parameter `weather_effect = production ./ optimal_production`
at one day. -/
noncomputable def weather_effect (p : Params) (production t : ℝ) : ℝ :=
  production / optimal_production p t

/-- Generated quantity `max = min + amplitude * tanh(saturation)`. -/
noncomputable def max (p : Params) : ℝ :=
  p.min + p.amplitude * Real.tanh p.saturation

/-- C2.  The deterministic transform of the submitted model: each
transformed parameter equals the declared formula, and at the concrete
round-trip point (`min=20, amplitude=40, phase=0.17, saturation=1,
beta_c1=beta_s1=0, t_year=0.25`) the optimal production reduces to the
hand-computed undistorted saturated cosine `20 + 40*tanh((1 - sin 0.17)/2)`
(using `cos(pi/2 + x) = -sin x`), and the generated quantity is
`min + amplitude * tanh(saturation)`. -/
theorem stan_transformed_parameters_correct :
    (∀ (p : Params) (t : ℝ),
      instantaneous_phase p t = 2 * Real.pi * t + p.phase) ∧
    (∀ (p : Params) (t : ℝ),
      seasonal_oscillation p t = Real.tanh (p.saturation * 0.5 * (1 + Real.cos (
        (2 * Real.pi * t + p.phase)
        + p.beta_c1 * Real.cos (2 * Real.pi * t + p.phase)
        + p.beta_s1 * Real.sin (2 * Real.pi * t + p.phase))))) ∧
    (∀ (p : Params) (t : ℝ),
      optimal_production p t = p.min + p.amplitude * seasonal_oscillation p t) ∧
    (∀ (p : Params) (production t : ℝ),
      weather_effect p production t = production / optimal_production p t) ∧
    (∀ p : Params, modelling.max p = p.min + p.amplitude * Real.tanh p.saturation) ∧
    optimal_production ⟨20, 40, 0.17, 0, 0, 1⟩ 0.25
      = 20 + 40 * Real.tanh ((1 - Real.sin 0.17) / 2) ∧
    modelling.max ⟨20, 40, 0.17, 0, 0, 1⟩ = 20 + 40 * Real.tanh 1 := by
  refine ⟨fun p t => rfl, fun p t => rfl, fun p t => rfl, fun p production t => rfl,
    fun p => rfl, ?_, ?_⟩
  · simp only [optimal_production, seasonal_oscillation, instantaneous_phase]
    norm_num
    rw [show (2 : ℝ) * Real.pi * (1 / 4) + 17 / 100
        = Real.pi / 2 + 17 / 100 by ring]
    rw [Real.cos_add, Real.cos_pi_div_two, Real.sin_pi_div_two]
    norm_num
    congr 1
    ring
  · rfl

/-! The likelihood block of `_stan_code`: for each observed day the target
is incremented by
`log_sum_exp(log1m(lambda) + beta_lpdf(w | 2, 2), log(lambda) + beta_lpdf(w | 15, 2))`
with `lambda = 0.25`. -/

/-- Stan `log_sum_exp`. -/
noncomputable def log_sum_exp (a b : ℝ) : ℝ := Real.log (Real.exp a + Real.exp b)

/-- Stan `log1m`. -/
noncomputable def log1m (x : ℝ) : ℝ := Real.log (1 - x)

/-- The Euler beta function, via the Gamma function. -/
noncomputable def betaFn (a b : ℝ) : ℝ :=
  Real.Gamma a * Real.Gamma b / Real.Gamma (a + b)

/-- Stan `beta_lpdf(x | a, b)`: the log of the Beta density. -/
noncomputable def beta_lpdf (x a b : ℝ) : ℝ :=
  (a - 1) * Real.log x + (b - 1) * Real.log (1 - x) - Real.log (betaFn a b)

/-- The Beta density itself (on the open unit interval). -/
noncomputable def beta_pdf (x a b : ℝ) : ℝ :=
  x ^ (a - 1) * (1 - x) ^ (b - 1) / betaFn a b

/-- The per-day likelihood increment of the model block, with the fixed
mixture weight `lambda = 0.25` of the source. -/
noncomputable def target_increment (w : ℝ) : ℝ :=
  log_sum_exp (log1m 0.25 + beta_lpdf w 2 2) (Real.log 0.25 + beta_lpdf w 15 2)

/-- The direct two-component Beta mixture density
`(1 - lambda) * Beta(2,2) + lambda * Beta(15,2)` the spec describes. -/
noncomputable def mixture_pdf (lam x : ℝ) : ℝ :=
  (1 - lam) * beta_pdf x 2 2 + lam * beta_pdf x 15 2

theorem betaFn_pos (a b : ℝ) (ha : 0 < a) (hb : 0 < b) : 0 < betaFn a b := by
  rw [betaFn]
  have h1 := Real.Gamma_pos_of_pos ha
  have h2 := Real.Gamma_pos_of_pos hb
  have h3 := Real.Gamma_pos_of_pos (by linarith : (0 : ℝ) < a + b)
  positivity

theorem exp_beta_lpdf (x a b : ℝ) (hx : 0 < x) (hx1 : x < 1)
    (hB : 0 < betaFn a b) : Real.exp (beta_lpdf x a b) = beta_pdf x a b := by
  have h1x : (0 : ℝ) < 1 - x := by linarith
  rw [beta_lpdf, beta_pdf, Real.rpow_def_of_pos hx, Real.rpow_def_of_pos h1x,
    sub_eq_add_neg, Real.exp_add, Real.exp_add, Real.exp_neg, Real.exp_log hB,
    mul_comm (a - 1) (Real.log x), mul_comm (b - 1) (Real.log (1 - x)),
    div_eq_mul_inv]

theorem beta_pdf_pos (x a b : ℝ) (hx : 0 < x) (hx1 : x < 1)
    (hB : 0 < betaFn a b) : 0 < beta_pdf x a b := by
  have h1x : (0 : ℝ) < 1 - x := by linarith
  rw [beta_pdf]
  have hp1 := Real.rpow_pos_of_pos hx (a - 1)
  have hp2 := Real.rpow_pos_of_pos h1x (b - 1)
  positivity

/-- C4.  For every weather-effect value in the open unit interval, the
log-sum-exp form of the likelihood increment declared in the model block
equals the log of the direct two-component Beta mixture density with fixed
weight `lambda = 0.25`: `(1 - 0.25) * Beta(2,2) + 0.25 * Beta(15,2)`. -/
theorem target_increment_eq_log_mixture (w : ℝ) (h0 : 0 < w) (h1 : w < 1) :
    target_increment w = Real.log (mixture_pdf 0.25 w) := by
  rw [target_increment, log_sum_exp, mixture_pdf, Real.exp_add, Real.exp_add,
    exp_beta_lpdf w 2 2 h0 h1 (betaFn_pos 2 2 (by norm_num) (by norm_num)),
    exp_beta_lpdf w 15 2 h0 h1 (betaFn_pos 15 2 (by norm_num) (by norm_num)),
    log1m, Real.exp_log (by norm_num : (0 : ℝ) < 1 - 0.25),
    Real.exp_log (by norm_num : (0 : ℝ) < 0.25)]

/-- Witness for C4: the identity at the concrete weather effect `1/2`. -/
theorem target_increment_eq_log_mixture_witness :
    (0 : ℝ) < 1 / 2 ∧ (1 / 2 : ℝ) < 1 ∧
    target_increment (1 / 2) = Real.log (mixture_pdf 0.25 (1 / 2)) :=
  ⟨by norm_num, by norm_num,
    target_increment_eq_log_mixture (1 / 2) (by norm_num) (by norm_num)⟩

/-! Data submission (`modelling.fit_model`).  The Python function builds the
`stan_data` dictionary from the observation frame and hands it, together
with the model code, to `stan.build`; it performs no validation of its
own. -/

/-- The `stan_data` dictionary submitted to the engine. -/
structure StanData where
  N : Nat
  production : List ℚ
  t_year : List ℚ
deriving DecidableEq

/-- Embedding of the data-preparation step of `modelling.fit_model`: the
payload is built from the observation frame (dates paired with the
`Total production` column) with no validation and no clamping. -/
def fit_model_data (df : List (Date × ℚ)) : StanData :=
  { N := df.length
  , production := df.map Prod.snd
  , t_year := df.map (fun r => utilities.date_to_offset_in_year r.1) }

/-- The data-block constraints declared in `_stan_code`:
`vector<lower=0>[N] production` and `vector<lower=0, upper=1>[N] t_year`. -/
def stanDataConstraintsOk (d : StanData) : Bool :=
  d.production.all (fun x => 0 ≤ x) && d.t_year.all (fun t => 0 ≤ t && t ≤ 1)

/-- Modelled from the spec: the external inference engine (`stan.build`,
not part of this repository) checks the submitted data against the
constraints declared in the model's data block when the model is
instantiated, rejecting a violating payload rather than clamping it. -/
def submit_to_stan (d : StanData) : Except String StanData :=
  if stanDataConstraintsOk d then .ok d else .error "data constraint violated"

/-- A one-day observation frame with a negative production value. -/
def negativeDf : List (Date × ℚ) := [(⟨2023, 1, 1⟩, -5)]

/-- Counterexample to C5: `fit_model` performs no precondition check of its
own — on a frame with negative production it builds and submits the payload
with the offending value untouched, a payload that violates the declared
data-block constraints; any rejection therefore happens inside the
inference engine, not in the core before submission. -/
theorem negativeDf_offset :
    utilities.date_to_offset_in_year ⟨2023, 1, 1⟩ = 0 := by
  have hleap : isLeapYear 2023 = false := by decide
  norm_num [utilities.date_to_offset_in_year, dayOfYear, hleap]

theorem fit_model_no_core_validation :
    fit_model_data negativeDf
      = { N := 1, production := [-5], t_year := [0] } ∧
    stanDataConstraintsOk (fit_model_data negativeDf) = false := by
  have hdata : fit_model_data negativeDf
      = { N := 1, production := [-5], t_year := [0] } := by
    rw [fit_model_data]
    simp [negativeDf, negativeDf_offset]
  refine ⟨hdata, ?_⟩
  rw [hdata]
  norm_num [stanDataConstraintsOk]

/-- C5 amended.  The core builds the submission payload directly from the
observations with no validation and no clamping (the production vector is
passed through unchanged); the bounds `production >= 0` and
`0 <= t_year <= 1` are the constraints declared in the model's data block,
enforced at the inference-engine boundary: a violating payload is rejected
there and a conforming payload is accepted unchanged. -/
theorem fit_model_submission_boundary :
    (∀ df : List (Date × ℚ), (fit_model_data df).production = df.map Prod.snd) ∧
    (∀ df : List (Date × ℚ), (fit_model_data df).N = df.length) ∧
    (∀ d : StanData, stanDataConstraintsOk d = false →
      submit_to_stan d = .error "data constraint violated") ∧
    (∀ d : StanData, stanDataConstraintsOk d = true → submit_to_stan d = .ok d) := by
  refine ⟨fun df => rfl, fun df => rfl, ?_, ?_⟩
  · intro d hd
    rw [submit_to_stan, hd]
    rfl
  · intro d hd
    rw [submit_to_stan, hd]
    rfl

/-- Witness for C5 (amended): the negative-production payload is rejected at
the engine boundary, and a conforming payload is accepted. -/
theorem fit_model_submission_boundary_witness :
    (fit_model_data negativeDf).production = negativeDf.map Prod.snd ∧
    stanDataConstraintsOk (fit_model_data negativeDf) = false ∧
    submit_to_stan (fit_model_data negativeDf) = .error "data constraint violated" ∧
    stanDataConstraintsOk ⟨1, [5], [0]⟩ = true ∧
    submit_to_stan ⟨1, [5], [0]⟩ = .ok ⟨1, [5], [0]⟩ :=
  ⟨fit_model_submission_boundary.1 negativeDf,
    fit_model_no_core_validation.2,
    fit_model_submission_boundary.2.2.1 (fit_model_data negativeDf)
      fit_model_no_core_validation.2,
    by norm_num [stanDataConstraintsOk],
    fit_model_submission_boundary.2.2.2 ⟨1, [5], [0]⟩
      (by norm_num [stanDataConstraintsOk])⟩

end modelling

/-! Summary statistics (`plots.py`).  The peak-date distribution of
`plot_annual_variation`: per draw an `idxmax` over the date axis of the
reference-year optimal-production series, a `value_counts` histogram, a
year-wrap remapping of the histogram index, and normalisation by the number
of draws. -/

namespace plots

/-- Successor of a calendar date. -/
def nextDate (d : Date) : Date :=
  if d.day < daysInMonth d.year d.month then ⟨d.year, d.month, d.day + 1⟩
  else if d.month < 12 then ⟨d.year, d.month + 1, 1⟩
  else ⟨d.year + 1, 1, 1⟩

/-- The list of `n` consecutive dates starting at `d`. -/
def datesFrom (d : Date) : Nat → List Date
  | 0 => []
  | n + 1 => d :: datesFrom (nextDate d) n

/-- The synthetic reference year of `plot_annual_variation`:
`pd.to_datetime(np.arange(365), origin="2001-01-01", unit="D")`. -/
def refDates : List Date := datesFrom ⟨2001, 1, 1⟩ 365

/-- Worker for `idxmax`: fold keeping the first maximal entry (strict
comparison, so ties keep the earlier date, as pandas `idxmax` does). -/
def idxmaxGo (best : Date × ℚ) : List (Date × ℚ) → Date
  | [] => best.1
  | q :: rest => if best.2 < q.2 then idxmaxGo q rest else idxmaxGo best rest

/-- Embedding of `Series.idxmax` on one draw's series over `dates`: the date
of the first maximal value (`none` on an empty series).  The subsequent
`.round("D")` of the source is the identity at day resolution. -/
def idxmax (dates : List Date) (vals : List ℚ) : Option Date :=
  match dates.zip vals with
  | [] => none
  | p :: rest => some (idxmaxGo p rest)

/-- Embedding of `x + pd.DateOffset(years=n)`: add `n` years, clamping the
day to the target month's length. -/
def addYears (d : Date) (n : Nat) : Date :=
  ⟨d.year + n, d.month, min d.day (daysInMonth (d.year + n) d.month)⟩

/-- The year-wrap remap of the histogram index:
`x + pd.DateOffset(years=(x.month <= 6))`. -/
def wrapPeakDate (d : Date) : Date :=
  addYears d (if d.month ≤ 6 then 1 else 0)

/-- Embedding of `Series.value_counts`: each distinct value with its
multiplicity.  (pandas orders the result by descending count; the claims
below are about its content, for which we keep `dedup` order.) -/
def value_counts (l : List Date) : List (Date × Nat) :=
  l.dedup.map (fun d => (d, l.count d))

/-- Per-draw peak dates: `E_optimal.idxmax(axis="index").round("D")`, one
entry per draw (`draws` lists each posterior draw's series over `dates`). -/
def peakDates (dates : List Date) (draws : List (List ℚ)) : List Date :=
  draws.filterMap (fun s => idxmax dates s)

/-- The source's `max_date_hist` after the index remap: `value_counts` of
the peak dates, then the wrap applied to the histogram index. -/
def max_date_hist (dates : List Date) (draws : List (List ℚ)) :
    List (Date × Nat) :=
  (value_counts (peakDates dates draws)).map (fun pc => (wrapPeakDate pc.1, pc.2))

/-- The plotted bar heights: `max_date_hist / len(stan_fit)`, the histogram
normalised by the number of draws. -/
def peak_date_probabilities (dates : List Date) (draws : List (List ℚ)) :
    List (Date × ℚ) :=
  (max_date_hist dates draws).map
    (fun pc => (pc.1, (pc.2 : ℚ) / (draws.length : ℚ)))

/-- The histogram the spec describes: wrap every per-draw peak date first,
then histogram. -/
def spec_max_date_hist (dates : List Date) (draws : List (List ℚ)) :
    List (Date × Nat) :=
  value_counts ((peakDates dates draws).map wrapPeakDate)

theorem idxmaxGo_mem (best : Date × ℚ) (l : List (Date × ℚ)) :
    idxmaxGo best l = best.1 ∨ idxmaxGo best l ∈ l.map Prod.fst := by
  induction l generalizing best with
  | nil => exact Or.inl rfl
  | cons q rest ih =>
    rw [idxmaxGo]
    split_ifs
    · rcases ih q with h | h
      · exact Or.inr (by simp [h])
      · exact Or.inr (List.mem_cons_of_mem _ h)
    · rcases ih best with h | h
      · exact Or.inl h
      · exact Or.inr (List.mem_cons_of_mem _ h)

theorem idxmax_mem (dates : List Date) (vals : List ℚ) (d : Date)
    (h : idxmax dates vals = some d) : d ∈ dates := by
  rw [idxmax] at h
  cases hz : dates.zip vals with
  | nil => rw [hz] at h; cases h
  | cons p rest =>
    rw [hz] at h
    injection h with h
    subst h
    rcases idxmaxGo_mem p rest with h | h
    · have hp : p ∈ dates.zip vals := hz ▸ List.mem_cons_self p rest
      exact h ▸ (List.of_mem_zip hp).1
    · obtain ⟨q, hq, hfq⟩ := List.mem_map.mp h
      have hqz : q ∈ dates.zip vals := hz ▸ List.mem_cons_of_mem p hq
      exact hfq ▸ (List.of_mem_zip hqz).1

theorem idxmax_isSome (dates : List Date) (vals : List ℚ)
    (h1 : dates ≠ []) (h2 : vals ≠ []) : (idxmax dates vals).isSome = true := by
  rw [idxmax]
  cases hz : dates.zip vals with
  | nil =>
    rcases List.zip_eq_nil_iff.mp hz with h | h
    · exact absurd h h1
    · exact absurd h h2
  | cons p rest => rfl

theorem length_filterMap_of_isSome {α β : Type} (f : α → Option β) (l : List α)
    (h : ∀ a ∈ l, (f a).isSome = true) : (l.filterMap f).length = l.length := by
  induction l with
  | nil => rfl
  | cons a rest ih =>
    obtain ⟨b, hb⟩ := Option.isSome_iff_exists.mp (h a (List.mem_cons_self a rest))
    rw [List.filterMap_cons, hb, List.length_cons, List.length_cons,
      ih (fun x hx => h x (List.mem_cons_of_mem a hx))]

theorem daysInMonth_congr (y1 y2 : Int) (m : Nat)
    (h : isLeapYear y1 = isLeapYear y2) : daysInMonth y1 m = daysInMonth y2 m := by
  rcases m with _ | _ | _ | _ | _ | _ | _ | _ | _ | _ | _ | _ | m <;>
    simp [daysInMonth, h]

set_option maxRecDepth 10000 in
theorem refDates_facts : ∀ d ∈ refDates, ValidDate d ∧ d.year = 2001 := by decide

set_option maxRecDepth 10000 in
theorem refDates_length : refDates.length = 365 := by decide

theorem wrapPeakDate_eq (d : Date) (hv : ValidDate d) (hy : d.year = 2001) :
    wrapPeakDate d
      = if d.month ≤ 6 then ⟨2002, d.month, d.day⟩ else d := by
  obtain ⟨h1, h2, h3, h4⟩ := hv
  rw [wrapPeakDate]
  split_ifs with hm
  · rw [addYears, hy]
    have hdm : daysInMonth (2001 + (1 : Nat)) d.month = daysInMonth 2001 d.month :=
      daysInMonth_congr _ _ _ (by decide)
    rw [hdm]
    have : min d.day (daysInMonth 2001 d.month) = d.day :=
      min_eq_left (hy ▸ h4)
    rw [this]
    norm_num
  · rw [addYears]
    have hdm : daysInMonth (d.year + (0 : Nat)) d.month = daysInMonth d.year d.month := by
      norm_num
    rw [hdm]
    have : min d.day (daysInMonth d.year d.month) = d.day := min_eq_left h4
    rw [this]
    cases d
    norm_num

theorem wrap_injOn_refDates :
    ∀ d1 ∈ refDates, ∀ d2 ∈ refDates,
      wrapPeakDate d1 = wrapPeakDate d2 → d1 = d2 := by
  intro d1 h1 d2 h2 heq
  obtain ⟨hv1, hy1⟩ := refDates_facts d1 h1
  obtain ⟨hv2, hy2⟩ := refDates_facts d2 h2
  rw [wrapPeakDate_eq d1 hv1 hy1, wrapPeakDate_eq d2 hv2 hy2] at heq
  cases d1 with
  | mk y1 m1 dd1 =>
    cases d2 with
    | mk y2 m2 dd2 =>
      simp only at hy1 hy2
      subst hy1
      subst hy2
      split_ifs at heq <;> simp_all [Date.mk.injEq]

theorem dedup_map_of_injOn {α β : Type} [DecidableEq α] [DecidableEq β]
    (f : α → β) (l : List α)
    (hinj : ∀ x ∈ l, ∀ y ∈ l, f x = f y → x = y) :
    (l.map f).dedup = l.dedup.map f := by
  induction l with
  | nil => rfl
  | cons a rest ih =>
    have hinj2 : ∀ x ∈ rest, ∀ y ∈ rest, f x = f y → x = y := fun x hx y hy =>
      hinj x (List.mem_cons_of_mem a hx) y (List.mem_cons_of_mem a hy)
    rw [List.map_cons]
    by_cases ha : a ∈ rest
    · rw [List.dedup_cons_of_mem ha,
        List.dedup_cons_of_mem (List.mem_map_of_mem f ha), ih hinj2]
    · have hfa : f a ∉ rest.map f := by
        intro hmem
        obtain ⟨x, hx, hfx⟩ := List.mem_map.mp hmem
        have hxa : x = a :=
          hinj x (List.mem_cons_of_mem a hx) a (List.mem_cons_self a rest) hfx
        exact ha (hxa ▸ hx)
      rw [List.dedup_cons_of_not_mem hfa, List.dedup_cons_of_not_mem ha,
        List.map_cons, ih hinj2]

theorem count_map_of_injOn {α β : Type} [DecidableEq α] [DecidableEq β]
    (f : α → β) (l : List α) (x : α)
    (hinj : ∀ a ∈ x :: l, ∀ b ∈ x :: l, f a = f b → a = b) :
    (l.map f).count (f x) = l.count x := by
  induction l with
  | nil => rfl
  | cons a rest ih =>
    have hlift : ∀ p, p ∈ x :: rest → p ∈ x :: a :: rest := by
      intro p hp
      rcases List.mem_cons.mp hp with rfl | hp
      · exact List.mem_cons_self p (a :: rest)
      · exact List.mem_cons_of_mem _ (List.mem_cons_of_mem _ hp)
    have hinj2 : ∀ p ∈ x :: rest, ∀ q ∈ x :: rest, f p = f q → p = q :=
      fun p hp q hq => hinj p (hlift p hp) q (hlift q hq)
    rw [List.map_cons, List.count_cons, List.count_cons, ih hinj2]
    congr 1
    by_cases hax : a = x
    · simp [hax]
    · have hfax : f a ≠ f x := fun hfa =>
        hax (hinj a (List.mem_cons_of_mem x (List.mem_cons_self a rest))
          x (List.mem_cons_self x (a :: rest)) hfa)
      simp [hax, hfax]

theorem sum_map_div {α : Type} (l : List α) (f : α → ℚ) (c : ℚ) :
    (l.map (fun x => f x / c)).sum = (l.map f).sum / c := by
  induction l with
  | nil => simp
  | cons a rest ih => simp [ih, add_div]

/-- C6.  Over the reference year, remapping the histogram index after
counting (as the code does) agrees with shifting every per-draw peak date
before histogramming (as the spec states); dates with month at most June
move forward exactly one year, later months stay fixed; and the plotted
histogram is normalised by the number of draws, so the probabilities sum
to 1. -/
theorem peak_date_distribution_correct (draws : List (List ℚ))
    (hlen : ∀ s ∈ draws, s.length = 365) :
    max_date_hist refDates draws = spec_max_date_hist refDates draws ∧
    (draws ≠ [] →
      ((peak_date_probabilities refDates draws).map Prod.snd).sum = 1) ∧
    (∀ d ∈ refDates, 7 ≤ d.month → wrapPeakDate d = d) ∧
    (∀ d ∈ refDates, d.month ≤ 6 →
      wrapPeakDate d = ⟨d.year + 1, d.month, d.day⟩) := by
  have hpeaks_sub : ∀ d ∈ peakDates refDates draws, d ∈ refDates := by
    intro d hd
    obtain ⟨s, _, hsome⟩ := List.mem_filterMap.mp hd
    exact idxmax_mem refDates s d hsome
  set P := peakDates refDates draws with hP
  have hinj : ∀ x ∈ P, ∀ y ∈ P, wrapPeakDate x = wrapPeakDate y → x = y :=
    fun x hx y hy =>
      wrap_injOn_refDates x (hpeaks_sub x hx) y (hpeaks_sub y hy)
  have h1 : max_date_hist refDates draws = spec_max_date_hist refDates draws := by
    rw [max_date_hist, spec_max_date_hist, value_counts, value_counts, ← hP,
      dedup_map_of_injOn wrapPeakDate P hinj, List.map_map, List.map_map]
    apply List.map_congr_left
    intro x hx
    have hxP : x ∈ P := List.mem_dedup.mp hx
    have hlift : ∀ a, a ∈ x :: P → a ∈ P := by
      intro a ha
      rcases List.mem_cons.mp ha with rfl | ha
      · exact hxP
      · exact ha
    have hcount : (P.map wrapPeakDate).count (wrapPeakDate x) = P.count x :=
      count_map_of_injOn wrapPeakDate P x
        (fun a ha b hb => hinj a (hlift a ha) b (hlift b hb))
    simp only [Function.comp_apply, hcount]
  refine ⟨h1, ?_, ?_, ?_⟩
  · intro hne
    have hrne : refDates ≠ [] := by
      intro h
      have hl := refDates_length
      rw [h] at hl
      simp at hl
    have hPlen : P.length = draws.length := by
      rw [hP, peakDates]
      apply length_filterMap_of_isSome
      intro s hs
      refine idxmax_isSome refDates s hrne ?_
      intro h
      have := hlen s hs
      rw [h] at this
      simp at this
    have hn0 : (draws.length : ℚ) ≠ 0 := by
      simp only [ne_eq, Nat.cast_eq_zero, List.length_eq_zero]
      exact hne
    rw [peak_date_probabilities, List.map_map]
    have hsnd : (Prod.snd ∘ fun pc : Date × Nat =>
        (pc.1, (pc.2 : ℚ) / (draws.length : ℚ)))
        = fun pc : Date × Nat => (pc.2 : ℚ) / (draws.length : ℚ) := rfl
    rw [hsnd, max_date_hist, ← hP, List.map_map]
    have hsnd2 : ((fun pc : Date × Nat => (pc.2 : ℚ) / (draws.length : ℚ)) ∘
        fun pc : Date × Nat => (wrapPeakDate pc.1, pc.2))
        = fun pc : Date × Nat => (pc.2 : ℚ) / (draws.length : ℚ) := rfl
    rw [hsnd2, value_counts, List.map_map]
    have hsnd3 : ((fun pc : Date × Nat => (pc.2 : ℚ) / (draws.length : ℚ)) ∘
        fun d : Date => (d, P.count d))
        = fun d : Date => ((P.count d : ℚ) / (draws.length : ℚ)) := rfl
    rw [hsnd3]
    rw [show (fun d : Date => ((P.count d : ℚ) / (draws.length : ℚ)))
        = fun d : Date => ((fun x : Date => ((P.count x : ℚ))) d / (draws.length : ℚ))
      from rfl]
    rw [sum_map_div]
    rw [show (fun x : Date => ((P.count x : ℚ)))
        = (fun n : Nat => (n : ℚ)) ∘ (fun x : Date => P.count x) from rfl]
    rw [← List.map_map, ← Nat.cast_list_sum, List.sum_map_count_dedup_eq_length,
      hPlen]
    exact div_self hn0
  · intro d hd h7
    obtain ⟨hv, hy⟩ := refDates_facts d hd
    rw [wrapPeakDate_eq d hv hy, if_neg (by omega)]
  · intro d hd h6
    obtain ⟨hv, hy⟩ := refDates_facts d hd
    rw [wrapPeakDate_eq d hv hy, if_pos h6]
    cases d with
    | mk y m dd =>
      simp only at hy
      subst hy
      norm_num

/-- A concrete single posterior draw over the reference year. -/
def exampleDraw : List ℚ := List.map (fun i : Nat => (i : ℚ)) (List.range 365)

theorem exampleDraw_length : exampleDraw.length = 365 := by
  unfold exampleDraw
  rw [List.length_map, List.length_range]

/-- Witness for C6: one concrete draw of 365 values. -/
theorem peak_date_distribution_correct_witness :
    (∀ s ∈ [exampleDraw], s.length = 365) ∧
    (max_date_hist refDates [exampleDraw]
        = spec_max_date_hist refDates [exampleDraw] ∧
      ([exampleDraw] ≠ [] →
        ((peak_date_probabilities refDates
            [exampleDraw]).map Prod.snd).sum = 1) ∧
      (∀ d ∈ refDates, 7 ≤ d.month → wrapPeakDate d = d) ∧
      (∀ d ∈ refDates, d.month ≤ 6 →
        wrapPeakDate d = ⟨d.year + 1, d.month, d.day⟩)) :=
  ⟨by
      intro s hs
      simp only [List.mem_cons, List.not_mem_nil, or_false] at hs
      subst hs
      exact exampleDraw_length,
    peak_date_distribution_correct [exampleDraw]
      (by
        intro s hs
        simp only [List.mem_cons, List.not_mem_nil, or_false] at hs
        subst hs
        exact exampleDraw_length)⟩

/-! The rolling average and autocorrelation of `plot_weather_effect`.
`NaN` entries are embedded as `none`. -/

/-- Embedding of `rolling(window=14, center=True).mean()` on one column:
entry `i` is the mean of the 14 entries at offsets `i-7 .. i+6`; `NaN`
(`none`) whenever the window is not fully populated (pandas `min_periods`
defaults to the window size). -/
def rollingMeanCentered14 (s : List ℚ) : List (Option ℚ) :=
  List.map
    (fun i : Nat =>
      if 7 ≤ i ∧ i + 7 ≤ s.length then
        some ((((s.drop (i - 7)).take 14).sum) / 14)
      else none)
    (List.range s.length)

/-- pandas median of a list of rationals: mean of the two middle order
statistics, `NaN` (`none`) on an empty list. -/
def median (l : List ℚ) : Option ℚ :=
  let s := List.insertionSort (fun a b : ℚ => a ≤ b) l
  if h : s.length = 0 then none
  else
    some ((s.get ⟨(s.length - 1) / 2, by
        have := Nat.div_le_self (s.length - 1) 2
        omega⟩
      + s.get ⟨s.length / 2, Nat.div_lt_self (by omega) (by omega)⟩) / 2)

/-- Row-wise `median(axis="columns")` with pandas NaN skipping: for each of
the `nRows` date positions, the median of the non-NaN entries the columns
hold there (`none` when every column is NaN there). -/
def medianAcrossDraws (cols : List (List (Option ℚ))) (nRows : Nat) :
    List (Option ℚ) :=
  List.map (fun i : Nat => median (cols.filterMap (fun c => c.getD i none)))
    (List.range nRows)

/-- The `fortnightly_average` of `plot_weather_effect`: centered 14-day
rolling mean per draw, then the median across draws (`draws` lists each
column of the weather-effect frame, one series over the `nDates` dates). -/
def fortnightly_average (draws : List (List ℚ)) (nDates : Nat) :
    List (Option ℚ) :=
  medianAcrossDraws (draws.map rollingMeanCentered14) nDates

/-- Embedding of `Series.autocorr(lag)`: the Pearson correlation of the
series with its lag-shifted self over the overlapping pairs; `NaN` (`none`)
when fewer than two pairs overlap or either variance vanishes. -/
noncomputable def autocorr (s : List ℝ) (lag : Nat) : Option ℝ :=
  let xs := s.drop lag
  let ys := s.take (s.length - lag)
  if xs.length < 2 then none
  else
    let mx := xs.sum / (xs.length : ℝ)
    let my := ys.sum / (ys.length : ℝ)
    let vx := (xs.map (fun x => (x - mx) ^ 2)).sum
    let vy := (ys.map (fun y => (y - my) ^ 2)).sum
    if vx = 0 ∨ vy = 0 then none
    else
      some (((xs.zip ys).map (fun p => (p.1 - mx) * (p.2 - my))).sum /
        (Real.sqrt vx * Real.sqrt vy))

/-- Counterexample to C7: on a single-date weather-effect series the code
returns NaN-filled output — the rolling average is `[none]` and the
autocorrelation is `none` at every lag — and raises no error of any kind
(no `DegenerateInputError` exists anywhere in the source). -/
theorem single_date_no_error :
    fortnightly_average [[(1 : ℚ) / 2]] 1 = [none] ∧
    autocorr [(1 : ℝ) / 2] 0 = none ∧
    autocorr [(1 : ℝ) / 2] 1 = none := by
  refine ⟨?_, ?_, ?_⟩
  · decide
  · norm_num [autocorr]
  · norm_num [autocorr]

/-- C7 amended.  Invoked on a DerivedTimeSeries with a single date, the
rolling-average and autocorrelation summaries return NaN-filled output
(every entry `none`) instead of failing: no error is raised. -/
theorem single_date_statistics_nan :
    (∀ s : List ℚ, s.length = 1 → rollingMeanCentered14 s = [none]) ∧
    (∀ draws : List (List ℚ), (∀ c ∈ draws, c.length = 1) →
      fortnightly_average draws 1 = [none]) ∧
    (∀ (s : List ℝ) (lag : Nat), s.length = 1 → autocorr s lag = none) := by
  have hroll : ∀ s : List ℚ, s.length = 1 → rollingMeanCentered14 s = [none] := by
    intro s hs
    rw [rollingMeanCentered14, hs, show List.range 1 = [0] from rfl,
      List.map_cons, List.map_nil]
    norm_num
  refine ⟨hroll, ?_, ?_⟩
  · intro draws hdraws
    have hnil : (draws.map rollingMeanCentered14).filterMap
        (fun c => c.getD 0 none) = [] := by
      rw [List.filterMap_eq_nil_iff]
      intro col hcol
      obtain ⟨c, hc, rfl⟩ := List.mem_map.mp hcol
      rw [hroll c (hdraws c hc)]
      rfl
    rw [fortnightly_average, medianAcrossDraws,
      show List.range 1 = [0] from rfl, List.map_cons, List.map_nil, hnil]
    rfl
  · intro s lag hs
    match s, hs with
    | [a], _ =>
      match lag with
      | 0 => norm_num [autocorr]
      | n + 1 => norm_num [autocorr]

/-- Witness for C7 (amended): concrete single-date inputs. -/
theorem single_date_statistics_nan_witness :
    ([(3 : ℚ)].length = 1 ∧ rollingMeanCentered14 [(3 : ℚ)] = [none]) ∧
    ((∀ c ∈ [[(3 : ℚ)]], c.length = 1) ∧
      fortnightly_average [[(3 : ℚ)]] 1 = [none]) ∧
    ([(2 : ℝ)].length = 1 ∧ autocorr [(2 : ℝ)] 5 = none) :=
  ⟨⟨by decide, single_date_statistics_nan.1 [(3 : ℚ)] (by decide)⟩,
    ⟨by decide, single_date_statistics_nan.2.1 [[(3 : ℚ)]] (by decide)⟩,
    ⟨by decide, single_date_statistics_nan.2.2 [(2 : ℝ)] 5 (by decide)⟩⟩

/-! The marginal-vs-prior check of `plot_weather_effect`: it histograms the
flattened weather-effect values (`weather_effect.stack()`, `density=True`)
and plots a reference curve
`(1 - p) * scipy.stats.gamma.pdf(x, 5.0, 0.0, 1.0/8.0)
 + p * scipy.stats.gamma.pdf(x, 180.0, 0.0, 1.0/200.0)` with `p = 0.15`
on the grid `np.linspace(0.0, 1.1, 500)`. -/

/-- Embedding of `scipy.stats.gamma.pdf(x, a, 0, scale)`: the Gamma density
with shape `a` and scale `scale`, zero outside the positive axis. -/
noncomputable def gamma_pdf (a scale x : ℝ) : ℝ :=
  if 0 < x then
    x ^ (a - 1) * Real.exp (-(x / scale)) / (scale ^ a * Real.Gamma a)
  else 0

/-- The reference curve `plot_weather_effect` draws against the histogram
(`p = 0.15`). -/
noncomputable def weather_effect_prior_curve (x : ℝ) : ℝ :=
  (1 - 0.15) * gamma_pdf 5 (1 / 8) x + 0.15 * gamma_pdf 180 (1 / 200) x

/-- Embedding of `scipy.stats.beta.pdf(x, a, b)`: zero outside the open
unit interval. -/
noncomputable def scipy_beta_pdf (a b x : ℝ) : ℝ :=
  if 0 < x ∧ x < 1 then modelling.beta_pdf x a b else 0

/-- The mixture density declared in the model block of `_stan_code`:
`(1 - lambda) * Beta(2,2) + lambda * Beta(15,2)` with `lambda = 0.25`. -/
noncomputable def declared_beta_mixture (x : ℝ) : ℝ :=
  (1 - 0.25) * scipy_beta_pdf 2 2 x + 0.25 * scipy_beta_pdf 15 2 x

/-- The histogram input: `weather_effect.stack()`, every (date × draw)
value of the extracted frame flattened into one list. -/
def stackValues (rows : List (Date × List ℚ)) : List ℚ :=
  (rows.map Prod.snd).flatten

theorem gamma_pdf_pos (a scale x : ℝ) (ha : 0 < a) (hscale : 0 < scale)
    (hx : 0 < x) : 0 < gamma_pdf a scale x := by
  rw [gamma_pdf, if_pos hx]
  have h1 := Real.Gamma_pos_of_pos ha
  have h2 := Real.rpow_pos_of_pos hx (a - 1)
  have h3 := Real.rpow_pos_of_pos hscale a
  have h4 := Real.exp_pos (-(x / scale))
  positivity

theorem prior_curve_pos (x : ℝ) (hx : 0 < x) :
    0 < weather_effect_prior_curve x := by
  rw [weather_effect_prior_curve]
  have h1 := gamma_pdf_pos 5 (1 / 8) x (by norm_num) (by norm_num) hx
  have h2 := gamma_pdf_pos 180 (1 / 200) x (by norm_num) (by norm_num) hx
  nlinarith

/-- Counterexample to C8: at the grid point `x = 1.1` (the right end of
`np.linspace(0.0, 1.1, 500)`) the plotted reference density is strictly
positive while the Beta mixture declared in the model is zero there, so the
plotted curve is not the declared mixture. -/
theorem prior_curve_ne_declared_mixture :
    weather_effect_prior_curve 1.1 ≠ declared_beta_mixture 1.1 := by
  have hmix : declared_beta_mixture 1.1 = 0 := by
    rw [declared_beta_mixture, scipy_beta_pdf, scipy_beta_pdf,
      if_neg (by norm_num), if_neg (by norm_num)]
    ring
  have hpos : 0 < weather_effect_prior_curve 1.1 :=
    prior_curve_pos 1.1 (by norm_num)
  intro h
  rw [h, hmix] at hpos
  exact lt_irrefl 0 hpos

theorem gamma_pdf_closed_form (n : Nat) (rate : ℝ) (hrate : 0 < rate)
    (x : ℝ) (hx : 0 < x) :
    gamma_pdf ((n : ℝ) + 1) (1 / rate) x
      = rate ^ (n + 1) * x ^ n * Real.exp (-(rate * x)) / (Nat.factorial n : ℝ) := by
  rw [gamma_pdf, if_pos hx, Real.Gamma_nat_eq_factorial,
    show ((n : ℝ) + 1) - 1 = ((n : ℕ) : ℝ) by ring, Real.rpow_natCast,
    show x / (1 / rate) = rate * x by field_simp; ring,
    show ((n : ℝ) + 1) = (((n + 1 : ℕ)) : ℝ) by push_cast; ring,
    Real.rpow_natCast]
  rw [one_div, inv_pow]
  have hfact : (0 : ℝ) < (Nat.factorial n : ℝ) := by
    exact_mod_cast Nat.factorial_pos n
  have hrp : (0 : ℝ) < rate ^ (n + 1) := pow_pos hrate (n + 1)
  field_simp
  ring

/-- C8 amended.  The marginal check histograms the flattened (date × draw)
weather-effect values, but the reference density it plots is the
two-component Gamma mixture
`0.85 * Gamma(shape 5, rate 8) + 0.15 * Gamma(shape 180, rate 200)` (in
closed form below), which differs from the Beta mixture declared in the
model block. -/
theorem weather_effect_prior_curve_spec :
    (∀ x : ℝ, 0 < x → weather_effect_prior_curve x
      = (17 / 20) * (8 ^ (5 : ℕ) * x ^ (4 : ℕ) * Real.exp (-(8 * x))
          / (Nat.factorial 4 : ℝ))
        + (3 / 20) * (200 ^ (180 : ℕ) * x ^ (179 : ℕ) * Real.exp (-(200 * x))
          / (Nat.factorial 179 : ℝ))) ∧
    (∃ x : ℝ, weather_effect_prior_curve x ≠ declared_beta_mixture x) ∧
    (∀ rows : List (Date × List ℚ),
      (stackValues rows).length = ((rows.map Prod.snd).map List.length).sum) := by
  refine ⟨?_, ?_, ?_⟩
  · intro x hx
    rw [weather_effect_prior_curve,
      show (5 : ℝ) = ((4 : ℕ) : ℝ) + 1 by norm_num,
      show (180 : ℝ) = ((179 : ℕ) : ℝ) + 1 by norm_num,
      show (1 / 8 : ℝ) = 1 / ((8 : ℝ)) by norm_num,
      show (1 / 200 : ℝ) = 1 / ((200 : ℝ)) by norm_num,
      gamma_pdf_closed_form 4 8 (by norm_num) x hx,
      gamma_pdf_closed_form 179 200 (by norm_num) x hx]
    norm_num
  · refine ⟨1.1, ?_⟩
    have hmix : declared_beta_mixture 1.1 = 0 := by
      rw [declared_beta_mixture, scipy_beta_pdf, scipy_beta_pdf,
        if_neg (by norm_num), if_neg (by norm_num)]
      ring
    have hpos : 0 < weather_effect_prior_curve 1.1 :=
      prior_curve_pos 1.1 (by norm_num)
    intro h
    rw [h, hmix] at hpos
    exact lt_irrefl 0 hpos
  · intro rows
    rw [stackValues, List.length_flatten]

/-- A concrete two-date, two-draw extracted frame. -/
def exampleRows : List (Date × List ℚ) :=
  [(⟨2023, 1, 1⟩, [1, 2]), (⟨2023, 1, 2⟩, [3, 4])]

/-- Witness for C8 (amended): the closed form at `x = 1` and the stacked
length on a concrete two-draw frame. -/
theorem weather_effect_prior_curve_spec_witness :
    ((0 : ℝ) < 1 ∧ weather_effect_prior_curve 1
      = (17 / 20) * (8 ^ (5 : ℕ) * (1 : ℝ) ^ (4 : ℕ) * Real.exp (-(8 * 1))
          / (Nat.factorial 4 : ℝ))
        + (3 / 20) * (200 ^ (180 : ℕ) * (1 : ℝ) ^ (179 : ℕ) * Real.exp (-(200 * 1))
          / (Nat.factorial 179 : ℝ))) ∧
    (stackValues exampleRows).length
      = ((exampleRows.map Prod.snd).map List.length).sum :=
  ⟨⟨by norm_num, weather_effect_prior_curve_spec.1 1 (by norm_num)⟩,
    weather_effect_prior_curve_spec.2.2 exampleRows⟩

end plots

/-! The prediction comparator (`analysis.compare_with_predictions`). -/

namespace analysis

/-- One daily observation row: the date index and the `Total production`
column. -/
structure Observation where
  date : Date
  production : ℚ
deriving DecidableEq

/-- The `strftime("%b")` month abbreviation, months 1-based. -/
def monthName (m : Nat) : String :=
  ["Jan", "Feb", "Mar", "Apr", "May", "Jun", "Jul", "Aug", "Sep", "Oct",
    "Nov", "Dec"].getD (m - 1) ""

/-- The per-(year, month) production totals after the `Year >= 2023` cutoff
(the `query` then `groupby(["Year", "Month"]).aggregate("sum")` steps;
pandas sorts the group keys, we keep first-encounter order, which none of
the properties below depend on). -/
def monthlySums (obs : List Observation) : List ((Int × String) × ℚ) :=
  let kept := obs.filter (fun o => 2023 ≤ o.date.year)
  let keys := (kept.map (fun o => (o.date.year, monthName o.date.month))).dedup
  keys.map (fun k =>
    (k, ((kept.filter (fun o =>
      (o.date.year, monthName o.date.month) = k)).map
        (fun o => o.production)).sum))

/-- The `["min", "mean", "max"]` aggregate over one month's per-year sums. -/
def summarize (vals : List ℚ) : ℚ × ℚ × ℚ :=
  match vals with
  | [] => (0, 0, 0)
  | v :: rest =>
    (rest.foldl min v, (v :: rest).sum / (((v :: rest).length : ℚ)),
      rest.foldl max v)

/-- The across-years summary per month
(`groupby("Month").aggregate(["min", "mean", "max"])`). -/
def monthStats (obs : List Observation) : List (String × (ℚ × ℚ × ℚ)) :=
  let sums := monthlySums obs
  let months := (sums.map (fun s => s.1.2)).dedup
  months.map (fun m =>
    (m, summarize ((sums.filter (fun s => s.1.2 = m)).map Prod.snd)))

/-- Embedding of `analysis.compare_with_predictions(observations, predictions)`:
rename the prediction column (semantically a no-op here), filter, group and
summarize the observations, then `pd.concat(..., axis="columns")` — an
outer join on the month-name index: every month present on either side
yields one row pairing its optional predicted value with its optional
observed statistics. -/
def compare_with_predictions (observations : List Observation)
    (predictions : List (String × ℚ)) :
    List (String × Option ℚ × Option (ℚ × ℚ × ℚ)) :=
  let stats := monthStats observations
  let keys := (predictions.map Prod.fst ++ stats.map Prod.fst).dedup
  keys.map (fun m => (m, predictions.lookup m, stats.lookup m))

theorem lookup_isSome_of_mem {β : Type} (l : List (String × β)) (m : String)
    (v : β) (h : (m, v) ∈ l) : ∃ w, l.lookup m = some w := by
  induction l with
  | nil => cases h
  | cons a rest ih =>
    rw [List.lookup]
    by_cases hma : m = a.1
    · refine ⟨a.2, ?_⟩
      have : (m == a.1) = true := by simp [hma]
      rw [this]
    · have hbeq : (m == a.1) = false := by simp [hma]
      rw [hbeq]
      rcases List.mem_cons.mp h with heq | hmem
      · exact absurd (congrArg Prod.fst heq) hma
      · exact ih hmem

theorem mem_map_fst_iff {β : Type} (l : List (String × β)) (m : String) :
    m ∈ l.map Prod.fst ↔ ∃ v, (m, v) ∈ l := by
  constructor
  · intro h
    obtain ⟨p, hp, hfst⟩ := List.mem_map.mp h
    exact ⟨p.2, by rw [← hfst]; exact hp⟩
  · rintro ⟨v, hv⟩
    exact List.mem_map.mpr ⟨(m, v), hv, rfl⟩

/-- C9.  The comparator ignores every observation from a calendar year
before 2023; the merge is keyed by month name and total: a month appears in
the output iff it appears in the predictions or in the summarized
observations; a month present in the predictions whose statistics are
absent yields a row carrying its predicted value and `none` on the
observation side (and symmetrically), never a dropped row; and each
month's statistics entry is the min/mean/max summary of its nonempty list
of per-year sums. -/
theorem compare_with_predictions_correct :
    (∀ (obs : List Observation) (preds : List (String × ℚ)) (o : Observation),
      o.date.year < 2023 →
      compare_with_predictions (o :: obs) preds
        = compare_with_predictions obs preds) ∧
    (∀ (obs : List Observation) (preds : List (String × ℚ)) (m : String),
      ((∃ v, (m, v) ∈ preds) ∨ (∃ st, (m, st) ∈ monthStats obs)) ↔
        ∃ pv sv, (m, pv, sv) ∈ compare_with_predictions obs preds) ∧
    (∀ (obs : List Observation) (preds : List (String × ℚ)) (m : String)
      (v : ℚ), (m, v) ∈ preds → (monthStats obs).lookup m = none →
      ∃ w, preds.lookup m = some w ∧
        (m, some w, none) ∈ compare_with_predictions obs preds) ∧
    (∀ (obs : List Observation) (preds : List (String × ℚ)) (m : String)
      (st : ℚ × ℚ × ℚ), (m, st) ∈ monthStats obs → preds.lookup m = none →
      ∃ w, (monthStats obs).lookup m = some w ∧
        (m, none, some w) ∈ compare_with_predictions obs preds) ∧
    (∀ (obs : List Observation) (m : String) (st : ℚ × ℚ × ℚ),
      (m, st) ∈ monthStats obs →
      ((monthlySums obs).filter (fun s => s.1.2 = m)).map Prod.snd ≠ [] ∧
      st = summarize (((monthlySums obs).filter (fun s => s.1.2 = m)).map
        Prod.snd)) := by
  have hmemkeys : ∀ (obs : List Observation) (preds : List (String × ℚ))
      (m : String), m ∈ (preds.map Prod.fst ++ (monthStats obs).map Prod.fst).dedup
      ↔ (m ∈ preds.map Prod.fst ∨ m ∈ (monthStats obs).map Prod.fst) := by
    intro obs preds m
    rw [List.mem_dedup, List.mem_append]
  refine ⟨?_, ?_, ?_, ?_, ?_⟩
  · intro obs preds o ho
    have hfilter : (o :: obs).filter (fun x => decide (2023 ≤ x.date.year))
        = obs.filter (fun x => decide (2023 ≤ x.date.year)) :=
      List.filter_cons_of_neg (by simp; omega)
    rw [compare_with_predictions, compare_with_predictions,
      monthStats, monthStats, monthlySums, monthlySums, hfilter]
  · intro obs preds m
    constructor
    · intro h
      have hk : m ∈ (preds.map Prod.fst ++ (monthStats obs).map Prod.fst).dedup := by
        rw [hmemkeys]
        rcases h with ⟨v, hv⟩ | ⟨st, hst⟩
        · exact Or.inl ((mem_map_fst_iff preds m).mpr ⟨v, hv⟩)
        · exact Or.inr ((mem_map_fst_iff (monthStats obs) m).mpr ⟨st, hst⟩)
      exact ⟨preds.lookup m, (monthStats obs).lookup m,
        List.mem_map_of_mem _ hk⟩
    · rintro ⟨pv, sv, hrow⟩
      obtain ⟨k, hk, heq⟩ := List.mem_map.mp hrow
      have hkm : k = m := congrArg Prod.fst heq
      subst hkm
      rcases (hmemkeys obs preds k).mp hk with h | h
      · exact Or.inl ((mem_map_fst_iff preds k).mp h)
      · exact Or.inr ((mem_map_fst_iff (monthStats obs) k).mp h)
  · intro obs preds m v hv hnone
    obtain ⟨w, hw⟩ := lookup_isSome_of_mem preds m v hv
    refine ⟨w, hw, ?_⟩
    have hk : m ∈ (preds.map Prod.fst ++ (monthStats obs).map Prod.fst).dedup := by
      rw [hmemkeys]
      exact Or.inl ((mem_map_fst_iff preds m).mpr ⟨v, hv⟩)
    have hmem2 : (m, preds.lookup m, (monthStats obs).lookup m)
        ∈ compare_with_predictions obs preds :=
      List.mem_map_of_mem _ hk
    rw [hw, hnone] at hmem2
    exact hmem2
  · intro obs preds m st hst hnone
    obtain ⟨w, hw⟩ := lookup_isSome_of_mem (monthStats obs) m st hst
    refine ⟨w, hw, ?_⟩
    have hk : m ∈ (preds.map Prod.fst ++ (monthStats obs).map Prod.fst).dedup := by
      rw [hmemkeys]
      exact Or.inr ((mem_map_fst_iff (monthStats obs) m).mpr ⟨st, hst⟩)
    have hmem2 : (m, preds.lookup m, (monthStats obs).lookup m)
        ∈ compare_with_predictions obs preds :=
      List.mem_map_of_mem _ hk
    rw [hw, hnone] at hmem2
    exact hmem2
  · intro obs m st hst
    rw [monthStats] at hst
    obtain ⟨mo, hmo, heq⟩ := List.mem_map.mp hst
    have hm : mo = m := congrArg Prod.fst heq
    subst hm
    have hstval : st = summarize
        (((monthlySums obs).filter (fun s => s.1.2 = mo)).map Prod.snd) :=
      (congrArg Prod.snd heq).symm
    refine ⟨?_, hstval⟩
    have hmem : mo ∈ (monthlySums obs).map (fun s => s.1.2) :=
      List.mem_dedup.mp hmo
    obtain ⟨s, hs, hsm⟩ := List.mem_map.mp hmem
    intro hnil
    have hsmem : s ∈ (monthlySums obs).filter (fun x => decide (x.1.2 = mo)) :=
      List.mem_filter.mpr ⟨hs, by simp [hsm]⟩
    have hfil : (monthlySums obs).filter (fun x => decide (x.1.2 = mo)) = [] :=
      List.map_eq_nil_iff.mp hnil
    rw [hfil] at hsmem
    cases hsmem

/-- Concrete observations: January and February 2023 daily rows. -/
def exampleObs : List Observation :=
  [⟨⟨2023, 1, 5⟩, 95⟩, ⟨⟨2023, 2, 5⟩, 80⟩]

/-- Concrete predictions: January plus a December value with no matching
observations. -/
def examplePreds : List (String × ℚ) := [("Jan", 100), ("Dec", 50)]

/-- Witness for C9: a pre-2023 row is ignored, the merged table has a
January row, and the unmatched December prediction keeps its row with a
missing observation entry. -/
theorem compare_with_predictions_correct_witness :
    ((⟨⟨2022, 12, 25⟩, 7⟩ : Observation).date.year < 2023 ∧
      compare_with_predictions ((⟨⟨2022, 12, 25⟩, 7⟩ : Observation) :: exampleObs)
          examplePreds
        = compare_with_predictions exampleObs examplePreds) ∧
    (∃ pv sv, ("Jan", pv, sv) ∈ compare_with_predictions exampleObs examplePreds) ∧
    (("Dec", (50 : ℚ)) ∈ examplePreds ∧
      (monthStats exampleObs).lookup "Dec" = none ∧
      ∃ w, examplePreds.lookup "Dec" = some w ∧
        ("Dec", some w, none) ∈ compare_with_predictions exampleObs examplePreds) :=
  ⟨⟨by decide,
      compare_with_predictions_correct.1 exampleObs examplePreds
        ⟨⟨2022, 12, 25⟩, 7⟩ (by decide)⟩,
    (compare_with_predictions_correct.2.1 exampleObs examplePreds "Jan").mp
      (Or.inl ⟨100, by decide⟩),
    ⟨by decide, by decide,
      compare_with_predictions_correct.2.2.1 exampleObs examplePreds "Dec" 50
        (by decide) (by decide)⟩⟩

end analysis

end SolarAnalyses
